import Mathlib

/-!
Shallow embedding of the state-synchronization core of the two-peer duel
game in `src/main.rs`, together with theorems settling the frozen claims
about it.

Modelling conventions:
* `f32` scalars (positions, timers, elapsed times) are embedded as real
  numbers; `i32` scores as `Int`.
* The two player slots are indexed by `Fin 2`.  The source stores a `u8`
  id in each `Player`; every id the program constructs or indexes with is
  `0` or `1` (an out-of-range id would panic at the array index), so ids
  are embedded as `Fin 2`.
* Wall-clock `Instant`s are replaced by explicit elapsed-time state: the
  per-slot age since the last network update is the `net_age` field,
  advanced by `dt` at the start of each frame and zeroed on receipt,
  and the `~8 ms` send cadence becomes the `send_due` frame input.
* The UDP socket is replaced by: a `socket` flag (set by `connect`), an
  inbound list of datagrams `(sender address, decoded message?)` drained
  by `receiveMessages`, and outbound message lists returned by the
  operations that send; `sendMessage` returns the emitted datagrams
  (empty when the send is dropped) and never changes the state, exactly
  as in the source.
-/

namespace ShadowSwap

/-! ### Constants (src/main.rs lines 6-15) -/

def SCREEN_WIDTH : ℝ := 1200
def SCREEN_HEIGHT : ℝ := 800
def PLAYER_SIZE : ℝ := 20
def PLAYER_SPEED : ℝ := 200
def INVERSE_DURATION : ℝ := 5
def INVERSE_COOLDOWN : ℝ := 10
def TRAP_RADIUS : ℝ := 50
def WIN_SCORE : ℤ := 3
def INTERPOLATION_SPEED : ℝ := 10

/-! ### Data model -/

@[ext]
structure Vec2 where
  x : ℝ
  y : ℝ

@[ext]
structure Player where
  id : Fin 2
  pos : Vec2
  shadow_pos : Vec2
  score : ℤ
  is_trapped : Bool

inductive Message where
  | playerUpdate (p : Player)
  | inverseControl (active : Bool) (time_left : ℝ)
  | trapEvent (player_id : Fin 2)
  | gameReset

@[ext]
structure GameState where
  players : Fin 2 → Player
  is_host : Bool
  player_id : Fin 2
  socket : Bool
  client_addr : Option ℕ
  inverse_active : Bool
  inverse_timer : ℝ
  inverse_cooldown : ℝ
  trap_flash_timer : Fin 2 → ℝ
  game_time : ℝ
  net_age : Fin 2 → ℝ
  network_players : Fin 2 → Player

/-- The opposite slot: `1 - i` in the source. -/
def other (i : Fin 2) : Fin 2 := 1 - i

/-- The fixed initial layout of the two players (`GameState::new`),
also written back by `reset_game`. -/
noncomputable def initPlayer : Fin 2 → Player
  | 0 => { id := 0
           pos := ⟨SCREEN_WIDTH * 0.3, SCREEN_HEIGHT / 2⟩
           shadow_pos := ⟨SCREEN_WIDTH * 0.3, SCREEN_HEIGHT / 2 + 100⟩
           score := 0
           is_trapped := false }
  | 1 => { id := 1
           pos := ⟨SCREEN_WIDTH * 0.7, SCREEN_HEIGHT / 2⟩
           shadow_pos := ⟨SCREEN_WIDTH * 0.7, SCREEN_HEIGHT / 2 - 100⟩
           score := 0
           is_trapped := false }

/-- `GameState::new` (src/main.rs lines 70-117). -/
noncomputable def GameState.new (is_host : Bool) : GameState :=
  { players := initPlayer
    is_host := is_host
    player_id := if is_host then 0 else 1
    socket := false
    client_addr := none
    inverse_active := false
    inverse_timer := 0
    inverse_cooldown := 0
    trap_flash_timer := fun _ => 0
    game_time := 0
    net_age := fun _ => 0
    network_players := initPlayer }

/-- `GameState::connect`: the socket-setup side effect visible to the core
is that a socket exists afterwards. -/
def connect (s : GameState) : GameState := { s with socket := true }

/-- `GameState::send_message` (lines 132-144): returns the emitted
datagrams.  A host that has not yet learned its client's address, or a
peer without a socket, emits nothing; the state is never mutated. -/
def sendMessage (s : GameState) (m : Message) : List Message :=
  if s.socket = true then
    if s.is_host = true then
      match s.client_addr with
      | some _ => [m]
      | none => []
    else [m]
  else []

/-- `GameState::reset_game` (lines 309-327).  Note that it does not touch
`game_time`, `network_players`, `net_age`, `client_addr` or `socket`. -/
noncomputable def resetGame (s : GameState) : GameState :=
  { s with
    players := fun i =>
      { s.players i with
        pos := (initPlayer i).pos
        shadow_pos := (initPlayer i).shadow_pos
        score := 0
        is_trapped := false }
    inverse_active := false
    inverse_timer := 0
    inverse_cooldown := 0
    trap_flash_timer := fun _ => 0 }

/-- One iteration of the receive loop body (lines 150-184): learn the
client address from the first datagram (host only, before decoding), then
dispatch the decoded message; a `GameReset` only sets a flag, returned as
the `Bool` component.  `none` stands for a datagram that failed to
decode. -/
def receiveOne (s : GameState) (d : ℕ × Option Message) : GameState × Bool :=
  let s := if s.is_host = true ∧ s.client_addr = none then
      { s with client_addr := some d.1 } else s
  match d.2 with
  | none => (s, false)
  | some (.playerUpdate p) =>
      let s := { s with
        network_players := Function.update s.network_players p.id p
        net_age := Function.update s.net_age p.id 0 }
      if p.id ≠ s.player_id then
        ({ s with players := Function.update s.players p.id p }, false)
      else (s, false)
  | some (.inverseControl active time_left) =>
      ({ s with inverse_active := active, inverse_timer := time_left }, false)
  | some (.trapEvent pid) =>
      ({ s with
          players := Function.update s.players pid
            { s.players pid with
              is_trapped := true
              score := (s.players pid).score + 1 }
          trap_flash_timer := Function.update s.trap_flash_timer pid 1 }, false)
  | some .gameReset => (s, true)

/-- `GameState::receive_messages` (lines 146-189): drain the inbound
datagrams, then perform the reset requested by any received
`GameReset`. -/
noncomputable def receiveMessages (s : GameState) (inbound : List (ℕ × Option Message)) :
    GameState :=
  if s.socket = true then
    let r := inbound.foldl
      (fun (acc : GameState × Bool) d =>
        let p := receiveOne acc.1 d
        (p.1, acc.2 || p.2))
      (s, false)
    if r.2 = true then resetGame r.1 else r.1
  else s

/-- `GameState::update_inverse_timer` (lines 191-212), host-only.  The
state part and the broadcast it triggers on a flip. -/
noncomputable def updateInverseTimer (s : GameState) (dt : ℝ) :
    GameState × List Message :=
  if s.is_host = false then (s, [])
  else if s.inverse_active = true then
    let t := s.inverse_timer - dt
    if t ≤ 0 then
      ({ s with inverse_active := false, inverse_timer := t
                inverse_cooldown := INVERSE_COOLDOWN },
       sendMessage s (.inverseControl false 0))
    else ({ s with inverse_timer := t }, [])
  else
    let c := s.inverse_cooldown - dt
    if c ≤ 0 then
      ({ s with inverse_active := true, inverse_timer := INVERSE_DURATION
                inverse_cooldown := INVERSE_COOLDOWN },
       sendMessage s (.inverseControl true INVERSE_DURATION))
    else ({ s with inverse_cooldown := c }, [])

/-- `GameState::update_player` (lines 214-245): apply this frame's input
to the opponent slot; the shadow when inverse mode is inactive, the body
when it is active; then clamp per axis and mirror the moved point into
the network state. -/
noncomputable def updatePlayer (s : GameState) (input : Vec2) (dt : ℝ) :
    GameState :=
  let other_id := other s.player_id
  let controlling_shadow := !s.inverse_active
  if controlling_shadow = true then
    let t := (s.players other_id).shadow_pos
    let tx := min (max (t.x + input.x * PLAYER_SPEED * dt) PLAYER_SIZE)
      (SCREEN_WIDTH - PLAYER_SIZE)
    let ty := min (max (t.y + input.y * PLAYER_SPEED * dt) PLAYER_SIZE)
      (SCREEN_HEIGHT - PLAYER_SIZE)
    { s with
      players := Function.update s.players other_id
        { s.players other_id with shadow_pos := ⟨tx, ty⟩ }
      network_players := Function.update s.network_players other_id
        { s.network_players other_id with shadow_pos := ⟨tx, ty⟩ } }
  else
    let t := (s.players other_id).pos
    let tx := min (max (t.x + input.x * PLAYER_SPEED * dt) PLAYER_SIZE)
      (SCREEN_WIDTH - PLAYER_SIZE)
    let ty := min (max (t.y + input.y * PLAYER_SPEED * dt) PLAYER_SIZE)
      (SCREEN_HEIGHT - PLAYER_SIZE)
    { s with
      players := Function.update s.players other_id
        { s.players other_id with pos := ⟨tx, ty⟩ }
      network_players := Function.update s.network_players other_id
        { s.network_players other_id with pos := ⟨tx, ty⟩ } }

/-- The loop body of `GameState::interpolate_players` (lines 255-297) for
one non-local slot: `current` is `players[i]`, `network` is
`network_players[i]`, `age` the elapsed time since the slot's last
network update. -/
noncomputable def interpolateSlot (current network : Player) (age dt : ℝ) :
    Player :=
  if age > 0.1 then network
  else
    let dx := network.pos.x - current.pos.x
    let dy := network.pos.y - current.pos.y
    let dist := Real.sqrt (dx * dx + dy * dy)
    let move_dist := INTERPOLATION_SPEED * dt
    let pos := if dist > 0.1 then
        if dist > move_dist then
          ⟨current.pos.x + dx / dist * move_dist,
           current.pos.y + dy / dist * move_dist⟩
        else network.pos
      else current.pos
    let sdx := network.shadow_pos.x - current.shadow_pos.x
    let sdy := network.shadow_pos.y - current.shadow_pos.y
    let sdist := Real.sqrt (sdx * sdx + sdy * sdy)
    let shadow := if sdist > 0.1 then
        if sdist > move_dist then
          ⟨current.shadow_pos.x + sdx / sdist * move_dist,
           current.shadow_pos.y + sdy / sdist * move_dist⟩
        else network.shadow_pos
      else current.shadow_pos
    { current with
      pos := pos
      shadow_pos := shadow
      score := network.score
      is_trapped := network.is_trapped }

/-- `GameState::interpolate_players` (lines 247-299): every slot except
the local one is moved toward its network state (or snapped to it when
the last update is stale). -/
noncomputable def interpolatePlayers (s : GameState) (dt : ℝ) : GameState :=
  { s with
    players := fun i =>
      if i = s.player_id then s.players i
      else interpolateSlot (s.players i) (s.network_players i) (s.net_age i) dt }

/-- `GameState::swap_with_shadow` (lines 301-307). -/
def swapWithShadow (s : GameState) : GameState :=
  { s with
    players := Function.update s.players s.player_id
      { s.players s.player_id with
        pos := (s.players s.player_id).shadow_pos
        shadow_pos := (s.players s.player_id).pos }
    network_players := Function.update s.network_players s.player_id
      { s.network_players s.player_id with
        pos := (s.network_players s.player_id).shadow_pos
        shadow_pos := (s.network_players s.player_id).pos } }

/-- The end-of-frame synchronization step (line 460 of `main`):
`network_players[player_id] = players[player_id]`. -/
def syncSelf (s : GameState) : GameState :=
  { s with
    network_players :=
      Function.update s.network_players s.player_id (s.players s.player_id) }

/-- The Euclidean distance the trap detector computes for slot `i`
(lines 343-349): between slot `i`'s body and the other slot's shadow. -/
noncomputable def trapDist (s : GameState) (i : Fin 2) : ℝ :=
  let p := (s.players i).pos
  let q := (s.players (other i)).shadow_pos
  Real.sqrt ((p.x - q.x) * (p.x - q.x) + (p.y - q.y) * (p.y - q.y))

/-- The loop body of `GameState::check_traps` for slot `i`
(lines 341-363): trigger a trap when inside the trap radius and not
already trapped; clear the flag when outside twice the radius. -/
noncomputable def checkSlot (s : GameState) (i : Fin 2) :
    GameState × List Message :=
  let dist := trapDist s i
  let r :=
    if dist < TRAP_RADIUS ∧ (s.players i).is_trapped = false then
      ({ s with
          players := Function.update s.players i
            { s.players i with
              is_trapped := true
              score := (s.players i).score + 1 }
          trap_flash_timer := Function.update s.trap_flash_timer i 1 },
       sendMessage s (.trapEvent i))
    else (s, [])
  let s1 := r.1
  if (s1.players i).is_trapped = true ∧ dist > TRAP_RADIUS * 2 then
    ({ s1 with
        players := Function.update s1.players i
          { s1.players i with is_trapped := false } }, r.2)
  else (s1, r.2)

/-- The flash-timer decay at the top of `check_traps` (lines 335-339). -/
noncomputable def flashDecay (s : GameState) (dt : ℝ) : GameState :=
  { s with
    trap_flash_timer := fun i =>
      if s.trap_flash_timer i > 0 then s.trap_flash_timer i - dt
      else s.trap_flash_timer i }

/-- `GameState::check_traps` (lines 329-364), host-only: decay the flash
timers, then run the trap check for slot 0 and then slot 1. -/
noncomputable def checkTraps (s : GameState) (dt : ℝ) :
    GameState × List Message :=
  if s.is_host = false then (s, [])
  else
    let s0 := flashDecay s dt
    let r1 := checkSlot s0 0
    let r2 := checkSlot r1.1 1
    (r2.1, r1.2 ++ r2.2)

/-! ### The frame loop (`main`, lines 430-488)

The per-frame external stimuli: the drained inbound datagrams, the
elapsed time, the (already normalized) directional input, the edge
events for the SPACE and R keys, and whether the 8 ms send cadence has
elapsed. -/

structure FrameInput where
  inbound : List (ℕ × Option Message)
  dt : ℝ
  input : Vec2
  swap_pressed : Bool
  reset_pressed : Bool
  send_due : Bool

/-- Frame state after draining the network and advancing the clocks:
ages of the network updates grow by `dt`, then `receive_messages` runs,
then `game_time += dt`. -/
noncomputable def postReceive (s : GameState) (f : FrameInput) : GameState :=
  let s1 := { s with net_age := fun i => s.net_age i + f.dt }
  let s2 := receiveMessages s1 f.inbound
  { s2 with game_time := s2.game_time + f.dt }

/-- `game.players[0].score >= WIN_SCORE || game.players[1].score >= WIN_SCORE`. -/
def gameOver (s : GameState) : Prop :=
  (s.players 0).score ≥ WIN_SCORE ∨ (s.players 1).score ≥ WIN_SCORE

instance (s : GameState) : Decidable (gameOver s) := by
  unfold gameOver; infer_instance

/-- Frame state just after the end-of-frame synchronization step (line
460): receive, inverse timer, interpolation, input, swap, then sync. -/
noncomputable def postSync (s : GameState) (f : FrameInput) : GameState :=
  let s3 := postReceive s f
  let s4 := (updateInverseTimer s3 f.dt).1
  let s5 := interpolatePlayers s4 f.dt
  let s6 := if f.input.x * f.input.x + f.input.y * f.input.y > 0 then
      updatePlayer s5 f.input f.dt else s5
  let s7 := if f.swap_pressed = true then swapWithShadow s6 else s6
  syncSelf s7

/-- Frame state after the R-key reset branch (lines 463-467), which runs
after the synchronization step and before the trap check. -/
noncomputable def preTrap (s : GameState) (f : FrameInput) : GameState :=
  if f.reset_pressed = true ∧ gameOver (postSync s f) then
    resetGame (postSync s f)
  else postSync s f

/-- One whole frame of `main`'s loop: the final state together with every
datagram emitted during the frame (inverse-timer broadcast, `GameReset`
broadcast, trap events, and the cadenced state sends of lines 472-488). -/
noncomputable def frame (s : GameState) (f : FrameInput) :
    GameState × List Message :=
  let oInv := (updateInverseTimer (postReceive s f) f.dt).2
  let oReset := if f.reset_pressed = true ∧ gameOver (postSync s f) then
      sendMessage (resetGame (postSync s f)) .gameReset else []
  let r := checkTraps (preTrap s f) f.dt
  let t := r.1
  let oSend := if f.send_due = true then
      sendMessage t (.playerUpdate (t.network_players t.player_id))
      ++ sendMessage t (.playerUpdate (t.network_players (other t.player_id)))
      ++ (if t.is_host = true then
            sendMessage t (.inverseControl t.inverse_active t.inverse_timer)
          else [])
    else []
  (t, oInv ++ oReset ++ r.2 ++ oSend)

/-- The states the program can be in at the top of the frame loop: the
constructed-and-connected state of either role, closed under frames. -/
inductive Reachable : GameState → Prop
  | init (is_host : Bool) : Reachable (connect (GameState.new is_host))
  | step {s : GameState} (f : FrameInput) :
      Reachable s → Reachable (frame s f).1

/-! ### Helper lemmas: slot arithmetic and field preservation -/

@[simp]
lemma other_zero : other 0 = 1 := rfl

@[simp]
lemma other_one : other 1 = 0 := rfl

lemma other_ne (i : Fin 2) : other i ≠ i := by fin_cases i <;> decide

lemma receiveOne_proj (s : GameState) (d : ℕ × Option Message) :
    (receiveOne s d).1.player_id = s.player_id ∧
    (receiveOne s d).1.is_host = s.is_host ∧
    (receiveOne s d).1.socket = s.socket := by
  obtain ⟨a, m⟩ := d
  rcases m with _ | (p | ⟨act, tl⟩ | pid | _) <;>
    (unfold receiveOne; dsimp only; split <;> (try split) <;> simp)

@[simp]
lemma resetGame_is_host (s : GameState) : (resetGame s).is_host = s.is_host := rfl

@[simp]
lemma resetGame_player_id (s : GameState) :
    (resetGame s).player_id = s.player_id := rfl

@[simp]
lemma resetGame_socket (s : GameState) : (resetGame s).socket = s.socket := rfl

@[simp]
lemma resetGame_game_time (s : GameState) :
    (resetGame s).game_time = s.game_time := rfl

@[simp]
lemma receiveMessages_is_host (s : GameState)
    (inbound : List (ℕ × Option Message)) :
    (receiveMessages s inbound).is_host = s.is_host := by
  unfold receiveMessages
  split
  · have key : ∀ (acc : GameState × Bool),
        (inbound.foldl
          (fun (acc : GameState × Bool) d =>
            let p := receiveOne acc.1 d
            (p.1, acc.2 || p.2)) acc).1.is_host = acc.1.is_host := by
      induction inbound with
      | nil => intro acc; rfl
      | cons d rest ih =>
          intro acc
          simp only [List.foldl_cons]
          rw [ih]
          exact (receiveOne_proj acc.1 d).2.1
    dsimp only
    split
    · rw [resetGame_is_host, key]
    · rw [key]
  · rfl

@[simp]
lemma receiveMessages_player_id (s : GameState)
    (inbound : List (ℕ × Option Message)) :
    (receiveMessages s inbound).player_id = s.player_id := by
  unfold receiveMessages
  split
  · have key : ∀ (acc : GameState × Bool),
        (inbound.foldl
          (fun (acc : GameState × Bool) d =>
            let p := receiveOne acc.1 d
            (p.1, acc.2 || p.2)) acc).1.player_id = acc.1.player_id := by
      induction inbound with
      | nil => intro acc; rfl
      | cons d rest ih =>
          intro acc
          simp only [List.foldl_cons]
          rw [ih]
          exact (receiveOne_proj acc.1 d).1
    dsimp only
    split
    · rw [resetGame_player_id, key]
    · rw [key]
  · rfl

@[simp]
lemma updateInverseTimer_players (s : GameState) (dt : ℝ) :
    (updateInverseTimer s dt).1.players = s.players := by
  unfold updateInverseTimer
  split
  · rfl
  · split <;> (dsimp only; split <;> rfl)

@[simp]
lemma updateInverseTimer_network (s : GameState) (dt : ℝ) :
    (updateInverseTimer s dt).1.network_players = s.network_players := by
  unfold updateInverseTimer
  split
  · rfl
  · split <;> (dsimp only; split <;> rfl)

@[simp]
lemma updateInverseTimer_is_host (s : GameState) (dt : ℝ) :
    (updateInverseTimer s dt).1.is_host = s.is_host := by
  unfold updateInverseTimer
  split
  · rfl
  · split <;> (dsimp only; split <;> rfl)

@[simp]
lemma updateInverseTimer_player_id (s : GameState) (dt : ℝ) :
    (updateInverseTimer s dt).1.player_id = s.player_id := by
  unfold updateInverseTimer
  split
  · rfl
  · split <;> (dsimp only; split <;> rfl)

@[simp]
lemma interpolatePlayers_is_host (s : GameState) (dt : ℝ) :
    (interpolatePlayers s dt).is_host = s.is_host := rfl

@[simp]
lemma interpolatePlayers_player_id (s : GameState) (dt : ℝ) :
    (interpolatePlayers s dt).player_id = s.player_id := rfl

@[simp]
lemma interpolatePlayers_network (s : GameState) (dt : ℝ) :
    (interpolatePlayers s dt).network_players = s.network_players := rfl

@[simp]
lemma interpolatePlayers_players_self (s : GameState) (dt : ℝ) :
    (interpolatePlayers s dt).players s.player_id = s.players s.player_id := by
  unfold interpolatePlayers
  simp

@[simp]
lemma updatePlayer_is_host (s : GameState) (input : Vec2) (dt : ℝ) :
    (updatePlayer s input dt).is_host = s.is_host := by
  unfold updatePlayer; dsimp only; split <;> rfl

@[simp]
lemma updatePlayer_player_id (s : GameState) (input : Vec2) (dt : ℝ) :
    (updatePlayer s input dt).player_id = s.player_id := by
  unfold updatePlayer; dsimp only; split <;> rfl

@[simp]
lemma swapWithShadow_is_host (s : GameState) :
    (swapWithShadow s).is_host = s.is_host := rfl

@[simp]
lemma swapWithShadow_player_id (s : GameState) :
    (swapWithShadow s).player_id = s.player_id := rfl

@[simp]
lemma syncSelf_is_host (s : GameState) : (syncSelf s).is_host = s.is_host := rfl

@[simp]
lemma syncSelf_player_id (s : GameState) :
    (syncSelf s).player_id = s.player_id := rfl

lemma checkSlot_network (s : GameState) (i : Fin 2) :
    (checkSlot s i).1.network_players = s.network_players := by
  unfold checkSlot; dsimp only; split <;> split <;> rfl

lemma checkSlot_is_host (s : GameState) (i : Fin 2) :
    (checkSlot s i).1.is_host = s.is_host := by
  unfold checkSlot; dsimp only; split <;> split <;> rfl

lemma checkSlot_player_id (s : GameState) (i : Fin 2) :
    (checkSlot s i).1.player_id = s.player_id := by
  unfold checkSlot; dsimp only; split <;> split <;> rfl

@[simp]
lemma checkTraps_network (s : GameState) (dt : ℝ) :
    (checkTraps s dt).1.network_players = s.network_players := by
  unfold checkTraps; split
  · rfl
  · rw [checkSlot_network, checkSlot_network]; rfl

@[simp]
lemma checkTraps_is_host (s : GameState) (dt : ℝ) :
    (checkTraps s dt).1.is_host = s.is_host := by
  unfold checkTraps; split
  · rfl
  · rw [checkSlot_is_host, checkSlot_is_host]; rfl

@[simp]
lemma checkTraps_player_id (s : GameState) (dt : ℝ) :
    (checkTraps s dt).1.player_id = s.player_id := by
  unfold checkTraps; split
  · rfl
  · rw [checkSlot_player_id, checkSlot_player_id]; rfl

/-! ### Witness base states -/

/-- The connected host, exactly as `main` sets it up before the loop. -/
noncomputable def hostW : GameState := connect (GameState.new true)

/-- The connected client, exactly as `main` sets it up before the loop. -/
noncomputable def clientW : GameState := connect (GameState.new false)

/-! ### C7: staleness snap -/

/-- C7.  Staleness snap: for a non-local slot whose last network update
is older than 0.1 s, the interpolation step copies the whole network
record — position, shadow position, score and trapped flag — into the
displayed record. -/
theorem staleness_snap (s : GameState) (dt : ℝ) (i : Fin 2)
    (hi : i ≠ s.player_id) (hstale : s.net_age i > 0.1) :
    (interpolatePlayers s dt).players i = s.network_players i := by
  unfold interpolatePlayers interpolateSlot
  dsimp only
  rw [if_neg hi, if_pos hstale]

/-- Witness for C7 at a concrete stale state. -/
theorem staleness_snap_witness :
    ((1 : Fin 2) ≠ ({ hostW with net_age := fun _ => 1 } : GameState).player_id
      ∧ ({ hostW with net_age := fun _ => 1 } : GameState).net_age 1 > 0.1)
    ∧ (interpolatePlayers { hostW with net_age := fun _ => 1 } 0.5).players 1
        = ({ hostW with net_age := fun _ => 1 } : GameState).network_players 1 := by
  have h1 : (1 : Fin 2) ≠ ({ hostW with net_age := fun _ => (1:ℝ) } : GameState).player_id := by
    show (1 : Fin 2) ≠ hostW.player_id
    simp [hostW, connect, GameState.new]
  have h2 : ({ hostW with net_age := fun _ => (1:ℝ) } : GameState).net_age 1 > 0.1 := by
    show (1 : ℝ) > 0.1
    norm_num
  exact ⟨⟨h1, h2⟩, staleness_snap _ 0.5 1 h1 h2⟩

/-! ### C8: cross-control resolver -/

/-- The per-point movement the spec describes: displacement
`input × PLAYER_SPEED × dt`, then a per-axis clamp to the playfield
inset by the avatar radius (the formula of lines 223-228 / 235-240). -/
noncomputable def specMove (t input : Vec2) (dt : ℝ) : Vec2 :=
  ⟨min (max (t.x + input.x * PLAYER_SPEED * dt) PLAYER_SIZE)
    (SCREEN_WIDTH - PLAYER_SIZE),
   min (max (t.y + input.y * PLAYER_SPEED * dt) PLAYER_SIZE)
    (SCREEN_HEIGHT - PLAYER_SIZE)⟩

/-- C8.  Cross-control resolver: with inverse mode inactive the frame
input moves only the opponent slot's shadow, with it active only the
opponent slot's body; the moved coordinate is displacement
`input × 200 × dt` clamped per axis, and the same moved point is written
into the network record of the opponent slot.  Everything else is
untouched. -/
theorem cross_control_resolver (s : GameState) (input : Vec2) (dt : ℝ)
    (_hdt : 0 ≤ dt) :
    (s.inverse_active = false →
      updatePlayer s input dt =
        { s with
          players := Function.update s.players (other s.player_id)
            { s.players (other s.player_id) with
              shadow_pos :=
                specMove ((s.players (other s.player_id)).shadow_pos) input dt }
          network_players := Function.update s.network_players (other s.player_id)
            { s.network_players (other s.player_id) with
              shadow_pos :=
                specMove ((s.players (other s.player_id)).shadow_pos) input dt } })
    ∧ (s.inverse_active = true →
      updatePlayer s input dt =
        { s with
          players := Function.update s.players (other s.player_id)
            { s.players (other s.player_id) with
              pos :=
                specMove ((s.players (other s.player_id)).pos) input dt }
          network_players := Function.update s.network_players (other s.player_id)
            { s.network_players (other s.player_id) with
              pos :=
                specMove ((s.players (other s.player_id)).pos) input dt } }) := by
  constructor <;> intro h <;>
    (unfold updatePlayer specMove; dsimp only; simp [h])

/-- Witness for C8 at the connected host state with a rightward input. -/
theorem cross_control_resolver_witness :
    (0 : ℝ) ≤ 1
    ∧ ((hostW.inverse_active = false →
      updatePlayer hostW ⟨1, 0⟩ 1 =
        { hostW with
          players := Function.update hostW.players (other hostW.player_id)
            { hostW.players (other hostW.player_id) with
              shadow_pos :=
                specMove ((hostW.players (other hostW.player_id)).shadow_pos) ⟨1, 0⟩ 1 }
          network_players := Function.update hostW.network_players (other hostW.player_id)
            { hostW.network_players (other hostW.player_id) with
              shadow_pos :=
                specMove ((hostW.players (other hostW.player_id)).shadow_pos) ⟨1, 0⟩ 1 } })
    ∧ (hostW.inverse_active = true →
      updatePlayer hostW ⟨1, 0⟩ 1 =
        { hostW with
          players := Function.update hostW.players (other hostW.player_id)
            { hostW.players (other hostW.player_id) with
              pos :=
                specMove ((hostW.players (other hostW.player_id)).pos) ⟨1, 0⟩ 1 }
          network_players := Function.update hostW.network_players (other hostW.player_id)
            { hostW.network_players (other hostW.player_id) with
              pos :=
                specMove ((hostW.players (other hostW.player_id)).pos) ⟨1, 0⟩ 1 } })) :=
  ⟨by norm_num, cross_control_resolver hostW ⟨1, 0⟩ 1 (by norm_num)⟩

/-! ### C9: reset effect -/

/-- C9.  Reset effect and frame condition: `reset_game` (reached locally
or through a received `GameReset`) puts both slots back to the initial
layout with zero scores and cleared trapped flags, zeroes the flash
timers, and returns the inverse-control machine to the inactive
`Cooldown(0)` state, while the free-running presentation clock
`game_time` is left unchanged. -/
theorem reset_effect (s : GameState) (a : ℕ) (hs : s.socket = true) :
    (∀ i, (resetGame s).players i =
      { s.players i with
        pos := (initPlayer i).pos
        shadow_pos := (initPlayer i).shadow_pos
        score := 0
        is_trapped := false })
    ∧ (resetGame s).inverse_active = false
    ∧ (resetGame s).inverse_timer = 0
    ∧ (resetGame s).inverse_cooldown = 0
    ∧ (∀ i, (resetGame s).trap_flash_timer i = 0)
    ∧ (resetGame s).game_time = s.game_time
    ∧ receiveMessages s [(a, some .gameReset)] =
        resetGame (if s.is_host = true ∧ s.client_addr = none
          then { s with client_addr := some a } else s) := by
  refine ⟨fun i => rfl, rfl, rfl, rfl, fun i => rfl, rfl, ?_⟩
  unfold receiveMessages receiveOne
  rw [if_pos hs]
  simp only [List.foldl_cons, List.foldl_nil]
  norm_num

/-- Witness for C9 at the connected host state. -/
theorem reset_effect_witness :
    hostW.socket = true
    ∧ ((∀ i, (resetGame hostW).players i =
      { hostW.players i with
        pos := (initPlayer i).pos
        shadow_pos := (initPlayer i).shadow_pos
        score := 0
        is_trapped := false })
    ∧ (resetGame hostW).inverse_active = false
    ∧ (resetGame hostW).inverse_timer = 0
    ∧ (resetGame hostW).inverse_cooldown = 0
    ∧ (∀ i, (resetGame hostW).trap_flash_timer i = 0)
    ∧ (resetGame hostW).game_time = hostW.game_time
    ∧ receiveMessages hostW [(7, some .gameReset)] =
        resetGame (if hostW.is_host = true ∧ hostW.client_addr = none
          then { hostW with client_addr := some 7 } else hostW)) :=
  ⟨rfl, reset_effect hostW 7 rfl⟩

/-! ### C3: TrapEvent duplicate delivery is not idempotent (code bug) -/

/-- C3.  The `TrapEvent` receive arm (lines 173-178) increments `score`
unconditionally, so a duplicate delivery is *not* idempotent: after the
first `TrapEvent{0}` the slot is already trapped with score 1, and a
second identical delivery raises the score to 2.  This contradicts the
spec's idempotence claim (the spec itself flags the increment as a
latent bug in §9). -/
theorem trap_event_double_delivery :
    ((receiveMessages clientW [(7, some (.trapEvent 0))]).players 0).is_trapped
        = true
    ∧ ((receiveMessages clientW [(7, some (.trapEvent 0))]).players 0).score = 1
    ∧ ((receiveMessages (receiveMessages clientW [(7, some (.trapEvent 0))])
          [(7, some (.trapEvent 0))]).players 0).score = 2 := by
  have hsock : clientW.socket = true := rfl
  have hhost : clientW.is_host = false := rfl
  unfold receiveMessages receiveOne
  simp [clientW, connect, GameState.new, initPlayer, Function.update]

/-! ### C10: host sends are dropped before peer discovery -/

lemma checkSlot_client_addr (s : GameState) (a : Option ℕ) (i : Fin 2) :
    (checkSlot { s with client_addr := a } i).1
      = { (checkSlot s i).1 with client_addr := a } := by
  unfold checkSlot trapDist
  dsimp only
  split_ifs <;> rfl

set_option maxHeartbeats 1000000 in
lemma checkTraps_client_addr (s : GameState) (a : Option ℕ) (dt : ℝ) :
    (checkTraps { s with client_addr := a } dt).1
      = { (checkTraps s dt).1 with client_addr := a } := by
  unfold checkTraps flashDecay checkSlot trapDist
  dsimp only
  split_ifs <;> rfl

/-- C10.  On a host peer that has not yet received any inbound datagram
(`client_addr` is still `none`, as it is at construction), every
`send_message` call emits nothing and raises no error; the client address
is learned exactly from the first received datagram; and the state
mutations of a sending operation (here the trap detector, whose
`TrapEvent` broadcasts are the ones being dropped) are identical to what
they would be with a connected peer.  `sendMessage` never mutates the
state, by construction, mirroring the source. -/
theorem host_send_dropped_before_discovery (s : GameState) (m : Message)
    (d : ℕ × Option Message) (dt : ℝ) (a : ℕ)
    (hh : s.is_host = true) (hn : s.client_addr = none) :
    sendMessage s m = []
    ∧ (GameState.new true).client_addr = none
    ∧ (receiveOne s d).1.client_addr = some d.1
    ∧ (checkTraps { s with client_addr := some a } dt).1.players
        = (checkTraps s dt).1.players := by
  refine ⟨?_, rfl, ?_, ?_⟩
  · unfold sendMessage
    rw [hh, hn]
    split <;> rfl
  · obtain ⟨addr, msg⟩ := d
    have hlearn : s.is_host = true ∧ s.client_addr = none := ⟨hh, hn⟩
    rcases msg with _ | (p | ⟨act, tl⟩ | pid | _) <;>
      (unfold receiveOne; dsimp only; rw [if_pos hlearn]) <;>
      first
      | rfl
      | (dsimp only; split <;> rfl)
  · rw [checkTraps_client_addr]

/-- Witness for C10: the freshly connected host, a trap event to send, a
first datagram from address 7. -/
theorem host_send_dropped_before_discovery_witness :
    (hostW.is_host = true ∧ hostW.client_addr = none)
    ∧ (sendMessage hostW (.trapEvent 0) = []
    ∧ (GameState.new true).client_addr = none
    ∧ (receiveOne hostW (7, none)).1.client_addr = some (7, (none : Option Message)).1
    ∧ (checkTraps { hostW with client_addr := some 9 } 0.5).1.players
        = (checkTraps hostW 0.5).1.players) :=
  ⟨⟨rfl, rfl⟩, host_send_dropped_before_discovery hostW (.trapEvent 0)
    (7, none) 0.5 9 rfl rfl⟩

/-! ### C1: trap hysteresis -/

/-- The positions of both slots' bodies and shadows at the moment one
host trap-detection step runs; the rest of the frame (input, swap,
interpolation, network receipt) may move them arbitrarily between
steps. -/
structure Pose where
  pos : Fin 2 → Vec2
  shadow : Fin 2 → Vec2

/-- Install a pose into the state, leaving scores and flags alone. -/
def setPose (s : GameState) (q : Pose) : GameState :=
  { s with
    players := fun i =>
      { s.players i with pos := q.pos i, shadow_pos := q.shadow i } }

/-- The distance the detector sees for slot `i` under pose `q`. -/
noncomputable def poseDist (q : Pose) (i : Fin 2) : ℝ :=
  Real.sqrt (((q.pos i).x - (q.shadow (other i)).x) *
      ((q.pos i).x - (q.shadow (other i)).x) +
    ((q.pos i).y - (q.shadow (other i)).y) *
      ((q.pos i).y - (q.shadow (other i)).y))

/-- A sequence of host trap-detection steps, each preceded by an
arbitrary motion of the four points. -/
noncomputable def runTrapSeq (s : GameState) (dt : ℝ) :
    List Pose → GameState
  | [] => s
  | q :: rest => runTrapSeq (checkTraps (setPose s q) dt).1 dt rest

lemma fin2_cases (i : Fin 2) : i = 0 ∨ i = 1 := by
  fin_cases i
  · exact Or.inl rfl
  · exact Or.inr rfl

lemma trapDist_setPose (s : GameState) (q : Pose) (i : Fin 2) :
    trapDist (setPose s q) i = poseDist q i := rfl

lemma checkSlot_players_ne (s : GameState) (i j : Fin 2) (h : j ≠ i) :
    (checkSlot s i).1.players j = s.players j := by
  unfold checkSlot
  dsimp only
  split_ifs <;> simp [Function.update_noteq h]

lemma checkSlot_pose (s : GameState) (i j : Fin 2) :
    ((checkSlot s i).1.players j).pos = (s.players j).pos
    ∧ ((checkSlot s i).1.players j).shadow_pos = (s.players j).shadow_pos := by
  by_cases h : j = i
  · subst h
    unfold checkSlot
    dsimp only
    split_ifs <;> simp [Function.update_same]
  · rw [checkSlot_players_ne s i j h]
    exact ⟨rfl, rfl⟩

lemma checkSlot_no_change (s : GameState) (i : Fin 2)
    (h1 : ¬(trapDist s i < TRAP_RADIUS ∧ (s.players i).is_trapped = false))
    (h2 : ¬((s.players i).is_trapped = true ∧ trapDist s i > TRAP_RADIUS * 2)) :
    (checkSlot s i).1 = s := by
  unfold checkSlot
  dsimp only
  rw [if_neg h1]
  dsimp only
  rw [if_neg h2]

lemma checkSlot_cleared_far (s : GameState) (i : Fin 2)
    (hd : trapDist s i > TRAP_RADIUS * 2) :
    ((checkSlot s i).1.players i).is_trapped = false := by
  have h1 : ¬(trapDist s i < TRAP_RADIUS ∧ (s.players i).is_trapped = false) := by
    rintro ⟨hlt, -⟩
    unfold TRAP_RADIUS at hd hlt
    linarith
  unfold checkSlot
  dsimp only
  rw [if_neg h1]
  dsimp only
  by_cases ht : (s.players i).is_trapped = true
  · rw [if_pos ⟨ht, hd⟩]
    simp [Function.update_same]
  · rw [if_neg (fun hc => ht hc.1)]
    exact Bool.not_eq_true _ |>.mp ht

lemma flashDecay_players (s : GameState) (dt : ℝ) :
    (flashDecay s dt).players = s.players := rfl

lemma trapDist_flashDecay (s : GameState) (dt : ℝ) (i : Fin 2) :
    trapDist (flashDecay s dt) i = trapDist s i := rfl

lemma trapDist_after_checkSlot (s : GameState) (j i : Fin 2) :
    trapDist (checkSlot s j).1 i = trapDist s i := by
  unfold trapDist
  rw [(checkSlot_pose s j i).1, (checkSlot_pose s j (other i)).2]

lemma checkTraps_slot_no_change (s : GameState) (dt : ℝ) (i : Fin 2)
    (h1 : ¬(trapDist s i < TRAP_RADIUS ∧ (s.players i).is_trapped = false))
    (h2 : ¬((s.players i).is_trapped = true ∧ trapDist s i > TRAP_RADIUS * 2)) :
    (checkTraps s dt).1.players i = s.players i := by
  have h1' : ¬(trapDist (flashDecay s dt) i < TRAP_RADIUS ∧
      ((flashDecay s dt).players i).is_trapped = false) := h1
  have h2' : ¬(((flashDecay s dt).players i).is_trapped = true ∧
      trapDist (flashDecay s dt) i > TRAP_RADIUS * 2) := h2
  unfold checkTraps
  dsimp only
  split
  · rfl
  · dsimp only
    rcases fin2_cases i with rfl | rfl
    · rw [checkSlot_players_ne _ 1 0 (by decide),
        checkSlot_no_change (flashDecay s dt) 0 h1' h2']
      rfl
    · have hA : (checkSlot (flashDecay s dt) 0).1.players 1
          = (flashDecay s dt).players 1 :=
        checkSlot_players_ne _ 0 1 (by decide)
      have hB : trapDist (checkSlot (flashDecay s dt) 0).1 1
          = trapDist (flashDecay s dt) 1 :=
        trapDist_after_checkSlot _ 0 1
      rw [checkSlot_no_change _ 1 (by rw [hA, hB]; exact h1')
          (by rw [hA, hB]; exact h2'), hA]
      rfl

lemma checkTraps_clears (s : GameState) (dt : ℝ) (i : Fin 2)
    (hh : s.is_host = true)
    (hd : trapDist s i > TRAP_RADIUS * 2) :
    ((checkTraps s dt).1.players i).is_trapped = false := by
  unfold checkTraps
  dsimp only
  rw [if_neg (by simp [hh])]
  dsimp only
  have hd' : trapDist (flashDecay s dt) i > TRAP_RADIUS * 2 := hd
  rcases fin2_cases i with rfl | rfl
  · rw [checkSlot_players_ne _ 1 0 (by decide)]
    exact checkSlot_cleared_far _ 0 hd'
  · apply checkSlot_cleared_far
    rw [trapDist_after_checkSlot]
    exact hd'

lemma runTrapSeq_invariant (dt : ℝ) (i : Fin 2) :
    ∀ (seq : List Pose) (s : GameState),
      s.is_host = true →
      (s.players i).is_trapped = true →
      (∀ q ∈ seq, poseDist q i ≤ TRAP_RADIUS * 2) →
      ((runTrapSeq s dt seq).players i).is_trapped = true
      ∧ ((runTrapSeq s dt seq).players i).score = (s.players i).score
      ∧ (runTrapSeq s dt seq).is_host = true := by
  intro seq
  induction seq with
  | nil => exact fun s hh ht _ => ⟨ht, rfl, hh⟩
  | cons q rest ih =>
      intro s hh ht hd
      have hset_t : ((setPose s q).players i).is_trapped = true := ht
      have hset_d : trapDist (setPose s q) i ≤ TRAP_RADIUS * 2 := by
        rw [trapDist_setPose]
        exact hd q (List.mem_cons_self q rest)
      have h1 : ¬(trapDist (setPose s q) i < TRAP_RADIUS ∧
          ((setPose s q).players i).is_trapped = false) := by
        rintro ⟨-, hf⟩
        rw [hset_t] at hf
        exact Bool.noConfusion hf
      have h2 : ¬(((setPose s q).players i).is_trapped = true ∧
          trapDist (setPose s q) i > TRAP_RADIUS * 2) := by
        rintro ⟨-, hgt⟩
        exact absurd hgt (not_lt.mpr hset_d)
      have hstep : (checkTraps (setPose s q) dt).1.players i
          = (setPose s q).players i :=
        checkTraps_slot_no_change _ dt i h1 h2
      have hh' : (checkTraps (setPose s q) dt).1.is_host = true := by
        rw [checkTraps_is_host]; exact hh
      have ht' : ((checkTraps (setPose s q) dt).1.players i).is_trapped = true := by
        rw [hstep]; exact hset_t
      obtain ⟨a, b, c⟩ := ih (checkTraps (setPose s q) dt).1 hh' ht'
        (fun p hp => hd p (List.mem_cons_of_mem q hp))
      rw [show runTrapSeq s dt (q :: rest)
          = runTrapSeq (checkTraps (setPose s q) dt).1 dt rest from rfl]
      refine ⟨a, ?_, c⟩
      rw [b, hstep]
      rfl

/-- C1.  Trap hysteresis: on the host, once a slot's `is_trapped` flag is
set it stays set across any sequence of trap-detection steps in which the
Euclidean distance between that slot's body and the other slot's shadow
never exceeds `2 × TRAP_RADIUS = 100` (even while it is above the trap
radius 50), and the slot's score is never incremented again during that
time; as soon as a step sees a distance above `100`, the flag is
cleared. -/
theorem trap_hysteresis (s : GameState) (dt : ℝ) (i : Fin 2)
    (seq : List Pose) (q : Pose)
    (hh : s.is_host = true)
    (ht : (s.players i).is_trapped = true)
    (hd : ∀ p ∈ seq, poseDist p i ≤ TRAP_RADIUS * 2) :
    ((runTrapSeq s dt seq).players i).is_trapped = true
    ∧ ((runTrapSeq s dt seq).players i).score = (s.players i).score
    ∧ (poseDist q i > TRAP_RADIUS * 2 →
        ((checkTraps (setPose (runTrapSeq s dt seq) q) dt).1.players i).is_trapped
          = false) := by
  obtain ⟨a, b, c⟩ := runTrapSeq_invariant dt i seq s hh ht hd
  refine ⟨a, b, fun hq => ?_⟩
  apply checkTraps_clears
  · exact c
  · rw [trapDist_setPose]
    exact hq

/-- A host state in which both slots are currently trapped. -/
noncomputable def trappedW : GameState :=
  { hostW with players := fun i => { initPlayer i with is_trapped := true } }

/-- A pose with the slot-0 body 60 pixels from the slot-1 shadow: above
the trap radius but inside the hysteresis band. -/
noncomputable def poseNear : Pose := ⟨fun _ => ⟨0, 0⟩, fun _ => ⟨60, 0⟩⟩

/-- A pose with the slot-0 body 200 pixels from the slot-1 shadow: past
twice the trap radius. -/
noncomputable def poseFar : Pose := ⟨fun _ => ⟨0, 0⟩, fun _ => ⟨200, 0⟩⟩

lemma poseNear_dist : poseDist poseNear 0 = 60 := by
  unfold poseDist poseNear
  dsimp only
  rw [show ((0:ℝ) - 60) * ((0:ℝ) - 60) + ((0:ℝ) - 0) * ((0:ℝ) - 0) = 60 ^ 2 by
    norm_num]
  exact Real.sqrt_sq (by norm_num)

lemma poseFar_dist : poseDist poseFar 0 = 200 := by
  unfold poseDist poseFar
  dsimp only
  rw [show ((0:ℝ) - 200) * ((0:ℝ) - 200) + ((0:ℝ) - 0) * ((0:ℝ) - 0) = 200 ^ 2 by
    norm_num]
  exact Real.sqrt_sq (by norm_num)

/-- Witness for C1: a trapped host slot survives a step at distance 60
(inside the hysteresis band) with its score unchanged, and a step at
distance 200 clears the flag. -/
theorem trap_hysteresis_witness :
    (trappedW.is_host = true
      ∧ (trappedW.players 0).is_trapped = true
      ∧ (∀ p ∈ [poseNear], poseDist p 0 ≤ TRAP_RADIUS * 2))
    ∧ (((runTrapSeq trappedW 0.016 [poseNear]).players 0).is_trapped = true
      ∧ ((runTrapSeq trappedW 0.016 [poseNear]).players 0).score
          = (trappedW.players 0).score
      ∧ (poseDist poseFar 0 > TRAP_RADIUS * 2 →
          ((checkTraps (setPose (runTrapSeq trappedW 0.016 [poseNear]) poseFar)
              0.016).1.players 0).is_trapped = false)) := by
  have hd : ∀ p ∈ [poseNear], poseDist p 0 ≤ TRAP_RADIUS * 2 := by
    intro p hp
    rw [List.mem_singleton.mp hp, poseNear_dist]
    unfold TRAP_RADIUS
    norm_num
  exact ⟨⟨rfl, rfl, hd⟩, trap_hysteresis trappedW 0.016 0 [poseNear] poseFar
    rfl rfl hd⟩

/-! ### C4: inverse-control timer periodicity -/

/-- Advance the host inverse-control timer through a list of per-frame
elapsed times. -/
noncomputable def advanceBy (s : GameState) (dts : List ℝ) : GameState :=
  dts.foldl (fun t dt => (updateInverseTimer t dt).1) s

/-- The timer advanced from the initial host state (`Cooldown(0)`) by
`n` one-second frames. -/
noncomputable def advanceUnit (n : ℕ) : GameState :=
  advanceBy (GameState.new true) (List.replicate n 1)

/-- Closed form of `(inverse_active, inverse_timer, inverse_cooldown)`
after `n` one-second frames from `Cooldown(0)`. -/
noncomputable def invClosed (n : ℕ) : Bool × ℝ × ℝ :=
  if n = 0 then (false, 0, 0)
  else if (n - 1) % 15 < 5 then (true, 5 - (((n - 1) % 15 : ℕ) : ℝ), 10)
  else (false, 0, 15 - (((n - 1) % 15 : ℕ) : ℝ))

lemma advanceUnit_succ (n : ℕ) :
    advanceUnit (n + 1) = (updateInverseTimer (advanceUnit n) 1).1 := by
  unfold advanceUnit advanceBy
  rw [List.replicate_succ', List.foldl_append]
  rfl

lemma updateInverseTimer_tick (s : GameState) (dt : ℝ) (hh : s.is_host = true) :
    ((updateInverseTimer s dt).1.inverse_active,
     (updateInverseTimer s dt).1.inverse_timer,
     (updateInverseTimer s dt).1.inverse_cooldown)
    = if s.inverse_active = true then
        (if s.inverse_timer - dt ≤ 0 then
          (false, s.inverse_timer - dt, INVERSE_COOLDOWN)
         else (s.inverse_active, s.inverse_timer - dt, s.inverse_cooldown))
      else
        (if s.inverse_cooldown - dt ≤ 0 then
          (true, INVERSE_DURATION, INVERSE_COOLDOWN)
         else (s.inverse_active, s.inverse_timer, s.inverse_cooldown - dt)) := by
  unfold updateInverseTimer
  rw [if_neg (by simp [hh])]
  dsimp only
  split_ifs <;> rfl

lemma advanceUnit_closed (n : ℕ) :
    ((advanceUnit n).inverse_active, (advanceUnit n).inverse_timer,
      (advanceUnit n).inverse_cooldown) = invClosed n
    ∧ (advanceUnit n).is_host = true := by
  induction n with
  | zero => exact ⟨rfl, rfl⟩
  | succ m ih =>
      obtain ⟨htri, hhost⟩ := ih
      have ha : (advanceUnit m).inverse_active = (invClosed m).1 :=
        congrArg Prod.fst htri
      have ht : (advanceUnit m).inverse_timer = (invClosed m).2.1 :=
        congrArg (fun p => p.2.1) htri
      have hc : (advanceUnit m).inverse_cooldown = (invClosed m).2.2 :=
        congrArg (fun p => p.2.2) htri
      rw [advanceUnit_succ]
      refine ⟨?_, by rw [updateInverseTimer_is_host]; exact hhost⟩
      rw [updateInverseTimer_tick (advanceUnit m) 1 hhost, ha, ht, hc]
      rcases Nat.eq_zero_or_pos m with rfl | hm
      · show (if (invClosed 0).1 = true then _ else _) = invClosed 1
        norm_num [invClosed, INVERSE_DURATION, INVERSE_COOLDOWN]
      · obtain ⟨k, rfl⟩ := Nat.exists_eq_add_of_le hm
        have hk15 : k % 15 < 15 := Nat.mod_lt _ (by norm_num)
        have hm1 : (1 + k) - 1 = k := by omega
        have hm2 : (1 + k + 1) - 1 = k + 1 := by omega
        by_cases hr : k % 15 < 5
        · -- active window
          have hiv : invClosed (1 + k)
              = (true, 5 - ((k % 15 : ℕ) : ℝ), 10) := by
            unfold invClosed
            rw [if_neg (by omega), hm1, if_pos hr]
          rw [hiv]
          by_cases hb : k % 15 < 4
          · -- stays active
            have hcond : ¬((5 : ℝ) - ((k % 15 : ℕ) : ℝ) - 1 ≤ 0) := by
              have : ((k % 15 : ℕ) : ℝ) ≤ 3 := by
                have : k % 15 ≤ 3 := by omega
                exact_mod_cast this
              linarith
            have hiv1 : invClosed (1 + k + 1)
                = (true, 5 - (((k + 1) % 15 : ℕ) : ℝ), 10) := by
              unfold invClosed
              rw [if_neg (by omega), hm2, if_pos (by omega)]
            rw [hiv1]
            have hk1 : (k + 1) % 15 = k % 15 + 1 := by omega
            simp only [if_pos rfl, if_neg hcond]
            rw [hk1]
            push_cast
            ring_nf
          · -- last active second: flips to cooldown
            have hr4 : k % 15 = 4 := by omega
            have hcond : (5 : ℝ) - ((k % 15 : ℕ) : ℝ) - 1 ≤ 0 := by
              rw [hr4]
              norm_num
            have hiv1 : invClosed (1 + k + 1)
                = (false, 0, 15 - (((k + 1) % 15 : ℕ) : ℝ)) := by
              unfold invClosed
              rw [if_neg (by omega), hm2, if_neg (by omega)]
            rw [hiv1]
            have hk1 : (k + 1) % 15 = 5 := by omega
            simp only [if_pos rfl, if_pos hcond]
            rw [hk1, hr4]
            norm_num [INVERSE_COOLDOWN]
        · -- cooldown window
          have hiv : invClosed (1 + k)
              = (false, 0, 15 - ((k % 15 : ℕ) : ℝ)) := by
            unfold invClosed
            rw [if_neg (by omega), hm1, if_neg hr]
          rw [hiv]
          by_cases hb : k % 15 < 14
          · -- stays in cooldown
            have hcond : ¬((15 : ℝ) - ((k % 15 : ℕ) : ℝ) - 1 ≤ 0) := by
              have : ((k % 15 : ℕ) : ℝ) ≤ 13 := by
                have : k % 15 ≤ 13 := by omega
                exact_mod_cast this
              linarith
            have hiv1 : invClosed (1 + k + 1)
                = (false, 0, 15 - (((k + 1) % 15 : ℕ) : ℝ)) := by
              unfold invClosed
              rw [if_neg (by omega), hm2, if_neg (by omega)]
            rw [hiv1]
            have hk1 : (k + 1) % 15 = k % 15 + 1 := by omega
            simp only [Bool.false_eq_true, if_false, if_neg hcond]
            rw [hk1]
            push_cast
            ring_nf
          · -- cooldown expires: flips to active
            have hr14 : k % 15 = 14 := by omega
            have hcond : (15 : ℝ) - ((k % 15 : ℕ) : ℝ) - 1 ≤ 0 := by
              rw [hr14]
              norm_num
            have hiv1 : invClosed (1 + k + 1)
                = (true, 5 - (((k + 1) % 15 : ℕ) : ℝ), 10) := by
              unfold invClosed
              rw [if_neg (by omega), hm2, if_pos (by omega)]
            rw [hiv1]
            have hk1 : (k + 1) % 15 = 0 := by omega
            simp only [Bool.false_eq_true, if_false, if_pos hcond]
            rw [hk1]
            norm_num [INVERSE_DURATION, INVERSE_COOLDOWN]

/-- C4 (amended).  From the initial host state `Cooldown(0)`, advancing
the timer in one-second frames, the state after `n` frames is `Active`
iff `(n + 14) % 15 < 5`, i.e. iff `(n - 1) mod 15` falls in the
five-second active window `[0, 5)` — the window is offset by one frame
because the first tick flips to `Active` and each flip re-arms the full
duration. -/
theorem inverse_timer_unit_periodicity (n : ℕ) :
    (advanceUnit n).inverse_active = true ↔ (n + 14) % 15 < 5 := by
  have ha : (advanceUnit n).inverse_active = (invClosed n).1 :=
    congrArg Prod.fst (advanceUnit_closed n).1
  rw [ha]
  rcases n with _ | m
  · norm_num [invClosed]
  · have h14 : (m + 1 + 14) % 15 = m % 15 := by omega
    have hm1 : (m + 1) - 1 = m := by omega
    unfold invClosed
    rw [if_neg (by omega), hm1, h14]
    split_ifs with hlt <;> simp [hlt]

/-- C4 counterexample: after five one-second frames (total elapsed time
`T = 5`) the state is `Active`, but the claimed formula
`T mod 15 < 5` is false at `T = 5`. -/
theorem inverse_timer_periodicity_counterexample :
    (advanceBy (GameState.new true) [1, 1, 1, 1, 1]).inverse_active = true
    ∧ ([(1:ℝ), 1, 1, 1, 1].sum = 5)
    ∧ ¬((5 : ℕ) % 15 < 5) := by
  refine ⟨?_, by norm_num, by decide⟩
  have h5 : advanceBy (GameState.new true) [1, 1, 1, 1, 1] = advanceUnit 5 := rfl
  have ha : (advanceUnit 5).inverse_active = (invClosed 5).1 :=
    congrArg Prod.fst (advanceUnit_closed 5).1
  rw [h5, ha]
  norm_num [invClosed]

/-! ### C5: interpolation convergence -/

/-- Distance from a displayed player's body to the network target's
body, exactly as `interpolate_players` computes it. -/
noncomputable def posDist (p network : Player) : ℝ :=
  Real.sqrt ((network.pos.x - p.pos.x) * (network.pos.x - p.pos.x) +
    (network.pos.y - p.pos.y) * (network.pos.y - p.pos.y))

lemma moved_dist (dx dy m : ℝ) (hm : 0 ≤ m)
    (hlt : m < Real.sqrt (dx * dx + dy * dy)) :
    Real.sqrt ((dx - dx / Real.sqrt (dx * dx + dy * dy) * m) *
        (dx - dx / Real.sqrt (dx * dx + dy * dy) * m) +
      (dy - dy / Real.sqrt (dx * dx + dy * dy) * m) *
        (dy - dy / Real.sqrt (dx * dx + dy * dy) * m))
    = Real.sqrt (dx * dx + dy * dy) - m := by
  set D := Real.sqrt (dx * dx + dy * dy) with hD
  have hD0 : 0 < D := lt_of_le_of_lt hm hlt
  have key : (dx - dx / D * m) * (dx - dx / D * m) +
      (dy - dy / D * m) * (dy - dy / D * m)
      = ((D - m) / D) ^ 2 * (dx * dx + dy * dy) := by
    field_simp
    ring
  rw [key, Real.sqrt_mul (by positivity), ← hD,
    Real.sqrt_sq (div_nonneg (by linarith) hD0.le),
    div_mul_cancel₀ _ hD0.ne']

lemma interpolateSlot_posDist (p net : Player) (age dt : ℝ)
    (hage : age ≤ 0.1) (hdt : 0 < dt) :
    posDist (interpolateSlot p net age dt) net
    = if posDist p net > 0.1 then
        (if posDist p net > INTERPOLATION_SPEED * dt then
          posDist p net - INTERPOLATION_SPEED * dt else 0)
      else posDist p net := by
  unfold interpolateSlot posDist
  rw [if_neg (not_lt.mpr hage)]
  dsimp only
  by_cases h1 : Real.sqrt ((net.pos.x - p.pos.x) * (net.pos.x - p.pos.x) +
      (net.pos.y - p.pos.y) * (net.pos.y - p.pos.y)) > 0.1
  · rw [if_pos h1, if_pos h1]
    by_cases h2 : Real.sqrt ((net.pos.x - p.pos.x) * (net.pos.x - p.pos.x) +
        (net.pos.y - p.pos.y) * (net.pos.y - p.pos.y))
        > INTERPOLATION_SPEED * dt
    · rw [if_pos h2, if_pos h2]
      dsimp only
      have harg : ∀ a b c : ℝ, a - (b + c) = (a - b) - c := fun a b c => by ring
      rw [show net.pos.x - (p.pos.x +
          (net.pos.x - p.pos.x) /
            Real.sqrt ((net.pos.x - p.pos.x) * (net.pos.x - p.pos.x) +
              (net.pos.y - p.pos.y) * (net.pos.y - p.pos.y)) *
            (INTERPOLATION_SPEED * dt))
        = (net.pos.x - p.pos.x) - (net.pos.x - p.pos.x) /
            Real.sqrt ((net.pos.x - p.pos.x) * (net.pos.x - p.pos.x) +
              (net.pos.y - p.pos.y) * (net.pos.y - p.pos.y)) *
            (INTERPOLATION_SPEED * dt) from by ring]
      rw [show net.pos.y - (p.pos.y +
          (net.pos.y - p.pos.y) /
            Real.sqrt ((net.pos.x - p.pos.x) * (net.pos.x - p.pos.x) +
              (net.pos.y - p.pos.y) * (net.pos.y - p.pos.y)) *
            (INTERPOLATION_SPEED * dt))
        = (net.pos.y - p.pos.y) - (net.pos.y - p.pos.y) /
            Real.sqrt ((net.pos.x - p.pos.x) * (net.pos.x - p.pos.x) +
              (net.pos.y - p.pos.y) * (net.pos.y - p.pos.y)) *
            (INTERPOLATION_SPEED * dt) from by ring]
      exact moved_dist _ _ _
        (by unfold INTERPOLATION_SPEED; positivity) h2
    · rw [if_neg h2, if_neg h2]
      simp
  · rw [if_neg h1, if_neg h1]

lemma interpolateSlot_pos_freeze (p net : Player) (age dt : ℝ)
    (hage : age ≤ 0.1) (hsmall : ¬(posDist p net > 0.1)) :
    (interpolateSlot p net age dt).pos = p.pos := by
  unfold posDist at hsmall
  unfold interpolateSlot
  rw [if_neg (not_lt.mpr hage)]
  dsimp only
  rw [if_neg hsmall]

lemma interpolateSlot_pos_snap (p net : Player) (age dt : ℝ)
    (hage : age ≤ 0.1) (hbig : posDist p net > 0.1)
    (hle : ¬(posDist p net > INTERPOLATION_SPEED * dt)) :
    (interpolateSlot p net age dt).pos = net.pos := by
  unfold posDist at hbig hle
  unfold interpolateSlot
  rw [if_neg (not_lt.mpr hage)]
  dsimp only
  rw [if_pos hbig, if_neg hle]

/-- C5 (amended).  With the network target held constant, the last
update fresh (age within the 0.1 s staleness threshold) and a fixed
`dt > 0`: each interpolation step changes the displayed body's distance
to the target by the exact law `d ↦ d` (inside the 0.1 dead zone),
`d ↦ d - 10·dt` (far away) or `d ↦ 0` (snap, reaching the target
exactly with no overshoot); the distance is monotonically non-increasing;
and within a bounded number of steps it enters the 0.1 dead zone, where
the body stops moving.  (The original claim that the target is always
reached *exactly* fails: a distance that lands inside `(0, 0.1]` stays
there forever — see the counterexample.) -/
theorem interpolation_convergence (p net : Player) (age dt : ℝ)
    (hage : age ≤ 0.1) (hdt : 0 < dt) :
    (∀ q : Player, posDist (interpolateSlot q net age dt) net
        = if posDist q net > 0.1 then
            (if posDist q net > INTERPOLATION_SPEED * dt then
              posDist q net - INTERPOLATION_SPEED * dt else 0)
          else posDist q net)
    ∧ (∀ q : Player,
        posDist (interpolateSlot q net age dt) net ≤ posDist q net)
    ∧ (∀ q : Player, ¬(posDist q net > 0.1) →
        (interpolateSlot q net age dt).pos = q.pos)
    ∧ (∀ q : Player, posDist q net > 0.1 →
        ¬(posDist q net > INTERPOLATION_SPEED * dt) →
        (interpolateSlot q net age dt).pos = net.pos)
    ∧ (∃ N : ℕ, ∀ n, N ≤ n →
        posDist ((fun q => interpolateSlot q net age dt)^[n] p) net ≤ 0.1) := by
  have law : ∀ q : Player, posDist (interpolateSlot q net age dt) net
      = if posDist q net > 0.1 then
          (if posDist q net > INTERPOLATION_SPEED * dt then
            posDist q net - INTERPOLATION_SPEED * dt else 0)
        else posDist q net :=
    fun q => interpolateSlot_posDist q net age dt hage hdt
  have hm : 0 < INTERPOLATION_SPEED * dt := by
    unfold INTERPOLATION_SPEED
    positivity
  have mono : ∀ q : Player,
      posDist (interpolateSlot q net age dt) net ≤ posDist q net := by
    intro q
    rw [law q]
    split_ifs with h1 h2
    · linarith
    · exact Real.sqrt_nonneg _
    · exact le_refl _
  refine ⟨law, mono, ?_, ?_, ?_⟩
  · exact fun q h => interpolateSlot_pos_freeze q net age dt hage h
  · exact fun q h1 h2 => interpolateSlot_pos_snap q net age dt hage h1 h2
  · have aux : ∀ n : ℕ,
        posDist ((fun q => interpolateSlot q net age dt)^[n] p) net ≤ 0.1
        ∨ posDist ((fun q => interpolateSlot q net age dt)^[n] p) net
            ≤ posDist p net - n * (INTERPOLATION_SPEED * dt) := by
      intro n
      induction n with
      | zero => right; simp
      | succ k ihk =>
          rw [Function.iterate_succ_apply']
          rcases ihk with hk | hk
          · left
            rw [law _, if_neg (not_lt.mpr hk)]
            exact hk
          · by_cases h1 :
              posDist ((fun q => interpolateSlot q net age dt)^[k] p) net > 0.1
            · by_cases h2 :
                posDist ((fun q => interpolateSlot q net age dt)^[k] p) net
                  > INTERPOLATION_SPEED * dt
              · right
                rw [law _, if_pos h1, if_pos h2]
                push_cast
                nlinarith [hk]
              · left
                rw [law _, if_pos h1, if_neg h2]
                norm_num
            · left
              rw [law _, if_neg h1]
              exact not_lt.mp h1
    obtain ⟨N, hN⟩ :=
      exists_nat_ge ((posDist p net - 0.1) / (INTERPOLATION_SPEED * dt))
    refine ⟨N, fun n hn => ?_⟩
    rcases aux n with h | h
    · exact h
    · have hNm : posDist p net - 0.1 ≤ N * (INTERPOLATION_SPEED * dt) := by
        rw [div_le_iff₀ hm] at hN
        linarith
      have hnN : (N:ℝ) * (INTERPOLATION_SPEED * dt)
          ≤ (n:ℝ) * (INTERPOLATION_SPEED * dt) := by
        apply mul_le_mul_of_nonneg_right _ hm.le
        exact_mod_cast hn
      linarith

/-- The displayed player of the C5 counterexample: at the origin. -/
noncomputable def nearP : Player := ⟨0, ⟨0, 0⟩, ⟨0, 0⟩, 0, false⟩

/-- The constant network target of the C5 counterexample: 0.05 pixels
away — inside the interpolator's `dist > 0.1` dead zone. -/
noncomputable def nearNet : Player := ⟨0, ⟨0.05, 0⟩, ⟨0, 0⟩, 0, false⟩

lemma nearP_fixed : interpolateSlot nearP nearNet 0 1 = nearP := by
  unfold interpolateSlot nearP nearNet
  rw [if_neg (by norm_num)]
  dsimp only
  have hd : Real.sqrt (((0.05:ℝ) - 0) * ((0.05:ℝ) - 0) + ((0:ℝ) - 0) * ((0:ℝ) - 0))
      = 0.05 := by
    rw [show ((0.05:ℝ) - 0) * ((0.05:ℝ) - 0) + ((0:ℝ) - 0) * ((0:ℝ) - 0)
        = 0.05 ^ 2 by norm_num]
    exact Real.sqrt_sq (by norm_num)
  rw [hd]
  rw [if_neg (by norm_num)]
  rw [show Real.sqrt (((0:ℝ) - 0) * ((0:ℝ) - 0) + ((0:ℝ) - 0) * ((0:ℝ) - 0))
      = 0 by simp]
  rw [if_neg (by norm_num)]

/-- C5 counterexample: with the target 0.05 pixels away (age 0 within
the staleness threshold, `dt = 1 > 0`), the interpolation step never
moves the displayed body at all, so it never reaches the target exactly,
contradicting the claim's bounded-step exact convergence. -/
theorem interpolation_exact_reach_counterexample :
    ((0:ℝ) ≤ 0.1 ∧ (0:ℝ) < 1)
    ∧ ∀ n : ℕ,
      ((fun q => interpolateSlot q nearNet 0 1)^[n] nearP).pos ≠ nearNet.pos := by
  refine ⟨⟨by norm_num, by norm_num⟩, fun n => ?_⟩
  have hiter : ∀ k : ℕ,
      (fun q => interpolateSlot q nearNet 0 1)^[k] nearP = nearP := by
    intro k
    induction k with
    | zero => rfl
    | succ j ih =>
        rw [Function.iterate_succ_apply', ih]
        exact nearP_fixed
  rw [hiter n]
  unfold nearP nearNet
  dsimp only
  intro h
  have hx := congrArg Vec2.x h
  norm_num at hx

/-- Witness for C5's amended theorem at the counterexample's inputs. -/
theorem interpolation_convergence_witness :
    ((0:ℝ) ≤ 0.1 ∧ (0:ℝ) < 1)
    ∧ ((∀ q : Player, posDist (interpolateSlot q nearNet 0 1) nearNet
        = if posDist q nearNet > 0.1 then
            (if posDist q nearNet > INTERPOLATION_SPEED * 1 then
              posDist q nearNet - INTERPOLATION_SPEED * 1 else 0)
          else posDist q nearNet)
    ∧ (∀ q : Player,
        posDist (interpolateSlot q nearNet 0 1) nearNet ≤ posDist q nearNet)
    ∧ (∀ q : Player, ¬(posDist q nearNet > 0.1) →
        (interpolateSlot q nearNet 0 1).pos = q.pos)
    ∧ (∀ q : Player, posDist q nearNet > 0.1 →
        ¬(posDist q nearNet > INTERPOLATION_SPEED * 1) →
        (interpolateSlot q nearNet 0 1).pos = nearNet.pos)
    ∧ (∃ N : ℕ, ∀ n, N ≤ n →
        posDist ((fun q => interpolateSlot q nearNet 0 1)^[n] nearP) nearNet
          ≤ 0.1)) :=
  ⟨⟨by norm_num, by norm_num⟩,
    interpolation_convergence nearP nearNet 0 1 (by norm_num) (by norm_num)⟩

/-! ### C2: frame-end synchronization invariant -/

lemma syncSelf_self (X : GameState) :
    (syncSelf X).network_players ((syncSelf X).player_id)
      = (syncSelf X).players ((syncSelf X).player_id) := by
  unfold syncSelf
  dsimp only
  exact Function.update_same _ _ _

lemma checkTraps_noop_client (s : GameState) (dt : ℝ)
    (hh : s.is_host = false) : (checkTraps s dt).1 = s := by
  unfold checkTraps
  rw [if_pos hh]

/-- C2 (amended).  The end-of-frame synchronization step does establish
`networkTruth[localSlot] = displayed[localSlot]` at the moment it runs
(first conjunct, unconditional).  But two same-frame actions run *after*
the sync and *before* the cadenced send, and only mutate `players`:
the R-key reset and the host trap detector.  The equality therefore
still holds at the send exactly when no reset fired this frame and the
trap detector neither trapped nor released the local slot (second
conjunct).  The original claim — equality at every outbound send for
every reachable state — fails without these side conditions (see the
counterexample). -/
theorem frame_sync_invariant (s : GameState) (f : FrameInput)
    (hreset : ¬(f.reset_pressed = true ∧ gameOver (postSync s f)))
    (htrap : (postSync s f).is_host = true →
      ¬(trapDist (postSync s f) ((postSync s f).player_id) < TRAP_RADIUS
          ∧ ((postSync s f).players ((postSync s f).player_id)).is_trapped
              = false)
      ∧ ¬(((postSync s f).players ((postSync s f).player_id)).is_trapped = true
          ∧ trapDist (postSync s f) ((postSync s f).player_id)
              > TRAP_RADIUS * 2)) :
    ((postSync s f).network_players ((postSync s f).player_id)
        = (postSync s f).players ((postSync s f).player_id))
    ∧ ((frame s f).1.network_players ((frame s f).1.player_id)
        = (frame s f).1.players ((frame s f).1.player_id)) := by
  have hpre : preTrap s f = postSync s f := by
    unfold preTrap
    rw [if_neg hreset]
  have hsync : (postSync s f).network_players ((postSync s f).player_id)
      = (postSync s f).players ((postSync s f).player_id) := syncSelf_self _
  refine ⟨hsync, ?_⟩
  have hframe : (frame s f).1 = (checkTraps (postSync s f) f.dt).1 := by
    show (checkTraps (preTrap s f) f.dt).1 = _
    rw [hpre]
  rw [hframe, checkTraps_player_id, checkTraps_network]
  by_cases hhost : (postSync s f).is_host = true
  · obtain ⟨h1, h2⟩ := htrap hhost
    rw [checkTraps_slot_no_change _ _ _ h1 h2]
    exact hsync
  · rw [checkTraps_noop_client _ _ ((Bool.not_eq_true _).mp hhost)]
    exact hsync

/-- An uneventful frame: nothing received, no input, no key presses,
send cadence due. -/
noncomputable def idleF : FrameInput := ⟨[], 1, ⟨0, 0⟩, false, false, true⟩

lemma postSync_idle_not_host : (postSync clientW idleF).is_host = false := by
  unfold postSync postReceive
  dsimp only
  norm_num [idleF, clientW, connect, GameState.new]

/-- Witness for C2's amended theorem: an idle client frame. -/
theorem frame_sync_invariant_witness :
    (¬(idleF.reset_pressed = true ∧ gameOver (postSync clientW idleF)))
    ∧ (((postSync clientW idleF).network_players
          ((postSync clientW idleF).player_id)
        = (postSync clientW idleF).players
          ((postSync clientW idleF).player_id))
    ∧ ((frame clientW idleF).1.network_players
          ((frame clientW idleF).1.player_id)
        = (frame clientW idleF).1.players
          ((frame clientW idleF).1.player_id))) := by
  have hr : ¬(idleF.reset_pressed = true ∧ gameOver (postSync clientW idleF)) := by
    rintro ⟨h, -⟩
    exact Bool.noConfusion h
  exact ⟨hr, frame_sync_invariant clientW idleF hr
    (fun h => absurd h (by rw [postSync_idle_not_host]; exact Bool.noConfusion))⟩

/-- The client-authored update of slot 1 that parks the slot-1 shadow
exactly on the host body's initial position `(360, 400)`. -/
noncomputable def plC : Player := ⟨1, ⟨840, 400⟩, ⟨360, 400⟩, 0, false⟩

/-- The counterexample frame input: one inbound `PlayerUpdate(plC)` from
address 7, `dt = 0`, no input, no key presses, send cadence due. -/
noncomputable def cf : FrameInput :=
  ⟨[(7, some (.playerUpdate plC))], 0, ⟨0, 0⟩, false, false, true⟩

/-- The host state after the counterexample frame's receive phase. -/
noncomputable def S2 : GameState where
  players := Function.update initPlayer 1 plC
  is_host := true
  player_id := 0
  socket := true
  client_addr := some 7
  inverse_active := false
  inverse_timer := 0
  inverse_cooldown := 0
  trap_flash_timer := fun _ => 0
  game_time := 0
  net_age := fun _ => 0
  network_players := Function.update initPlayer 1 plC

/-- The same state after the inverse timer's first tick flips to
active. -/
noncomputable def S3 : GameState :=
  { S2 with
    inverse_active := true
    inverse_timer := INVERSE_DURATION
    inverse_cooldown := INVERSE_COOLDOWN }

lemma step_recv : postReceive hostW cf = S2 := by
  unfold postReceive receiveMessages receiveOne
  dsimp only
  rw [if_pos (show hostW.socket = true from rfl)]
  rw [show cf.inbound = [(7, some (.playerUpdate plC))] from rfl]
  rw [List.foldl_cons, List.foldl_nil]
  dsimp only
  have hlearn : hostW.is_host = true ∧ hostW.client_addr = none := ⟨rfl, rfl⟩
  rw [if_pos hlearn]
  rw [if_pos (by decide : plC.id ≠ hostW.player_id)]
  dsimp only
  rw [if_neg (by decide : ¬((false || false) = true))]
  apply GameState.ext <;>
    first
    | rfl
    | (funext i
       fin_cases i <;>
         norm_num [hostW, cf, connect, GameState.new, S2, Function.update])
    | norm_num [hostW, cf, connect, GameState.new, S2]

lemma step_inv : (updateInverseTimer S2 cf.dt).1 = S3 := by
  unfold updateInverseTimer
  rw [if_neg (show ¬(S2.is_host = false) from by decide)]
  rw [if_neg (show ¬(S2.inverse_active = true) from by decide)]
  dsimp only
  rw [if_pos (show S2.inverse_cooldown - cf.dt ≤ 0 from by
    norm_num [S2, cf])]
  rfl

lemma interpolateSlot_self (p : Player) (age dt : ℝ)
    (hage : ¬(age > 0.1)) : interpolateSlot p p age dt = p := by
  unfold interpolateSlot
  rw [if_neg hage]
  dsimp only
  simp

lemma step_interp : interpolatePlayers S3 cf.dt = S3 := by
  unfold interpolatePlayers
  apply GameState.ext <;> try rfl
  funext i
  dsimp only
  rcases fin2_cases i with rfl | rfl
  · rw [if_pos (show (0 : Fin 2) = S3.player_id from rfl)]
  · rw [if_neg (by decide : ¬((1:Fin 2) = S3.player_id))]
    rw [show S3.players 1 = plC from rfl,
      show S3.network_players 1 = plC from rfl,
      show S3.net_age 1 = 0 from rfl]
    rw [interpolateSlot_self plC 0 cf.dt (by norm_num)]

lemma step_postSync : postSync hostW cf = S3 := by
  unfold postSync
  dsimp only
  rw [step_recv, step_inv, step_interp]
  rw [if_neg (show ¬(cf.input.x * cf.input.x + cf.input.y * cf.input.y > 0)
    from by norm_num [cf])]
  rw [if_neg (show ¬(cf.swap_pressed = true) from by decide)]
  unfold syncSelf
  apply GameState.ext <;> try rfl
  show Function.update S3.network_players S3.player_id
    (S3.players S3.player_id) = S3.network_players
  rw [show S3.players S3.player_id = S3.network_players S3.player_id from rfl]
  exact Function.update_eq_self _ _

lemma checkSlot_socket (s : GameState) (i : Fin 2) :
    (checkSlot s i).1.socket = s.socket := by
  unfold checkSlot
  dsimp only
  split_ifs <;> rfl

lemma checkSlot_addr_pres (s : GameState) (i : Fin 2) :
    (checkSlot s i).1.client_addr = s.client_addr := by
  unfold checkSlot
  dsimp only
  split_ifs <;> rfl

@[simp]
lemma checkTraps_socket (s : GameState) (dt : ℝ) :
    (checkTraps s dt).1.socket = s.socket := by
  unfold checkTraps
  split
  · rfl
  · rw [checkSlot_socket, checkSlot_socket]; rfl

@[simp]
lemma checkTraps_addr_pres (s : GameState) (dt : ℝ) :
    (checkTraps s dt).1.client_addr = s.client_addr := by
  unfold checkTraps
  split
  · rfl
  · rw [checkSlot_addr_pres, checkSlot_addr_pres]; rfl

lemma checkTraps_traps_slot0 (s : GameState) (dt : ℝ)
    (hh : s.is_host = true)
    (h1 : trapDist s 0 < TRAP_RADIUS)
    (h2 : (s.players 0).is_trapped = false) :
    (checkTraps s dt).1.players 0
      = { s.players 0 with
          is_trapped := true
          score := (s.players 0).score + 1 } := by
  unfold checkTraps
  rw [if_neg (by simp [hh])]
  dsimp only
  rw [checkSlot_players_ne _ 1 0 (by decide)]
  unfold checkSlot
  dsimp only
  rw [if_pos (⟨h1, h2⟩ : trapDist (flashDecay s dt) 0 < TRAP_RADIUS
    ∧ ((flashDecay s dt).players 0).is_trapped = false)]
  dsimp only
  rw [if_neg ?hcond]
  case hcond =>
    rintro ⟨-, hgt⟩
    have he : trapDist (flashDecay s dt) 0 = trapDist s 0 := rfl
    rw [he] at hgt
    unfold TRAP_RADIUS at h1 hgt
    linarith
  dsimp only
  rw [Function.update_same]
  rfl

lemma trapDist_S3 : trapDist S3 0 = 0 := by
  unfold trapDist
  rw [show (S3.players 0).pos = (initPlayer 0).pos from rfl]
  rw [show (S3.players (other 0)).shadow_pos = plC.shadow_pos from rfl]
  unfold initPlayer plC SCREEN_WIDTH SCREEN_HEIGHT
  dsimp only
  norm_num

/-- C2 counterexample: from the reachable freshly connected host state,
a frame that receives a client `PlayerUpdate` parking the slot-1 shadow
on the host body makes the trap detector fire *after* the frame's
synchronization step; at the cadenced send the local slot's network
record (score 0) no longer equals its displayed record (score 1). -/
theorem frame_sync_counterexample :
    Reachable hostW
    ∧ cf.send_due = true
    ∧ (frame hostW cf).1.socket = true
    ∧ (frame hostW cf).1.client_addr = some 7
    ∧ (frame hostW cf).1.network_players ((frame hostW cf).1.player_id)
        ≠ (frame hostW cf).1.players ((frame hostW cf).1.player_id) := by
  have hframe : (frame hostW cf).1 = (checkTraps (preTrap hostW cf) cf.dt).1 :=
    rfl
  have hpre : preTrap hostW cf = S3 := by
    unfold preTrap
    rw [if_neg ?hres, step_postSync]
    case hres =>
      rintro ⟨h, -⟩
      exact Bool.noConfusion h
  have hfired : (checkTraps S3 cf.dt).1.players 0
      = { S3.players 0 with
          is_trapped := true
          score := (S3.players 0).score + 1 } :=
    checkTraps_traps_slot0 S3 cf.dt rfl
      (by rw [trapDist_S3]; unfold TRAP_RADIUS; norm_num) rfl
  refine ⟨Reachable.init true, rfl, ?_, ?_, ?_⟩
  · rw [hframe, hpre, checkTraps_socket]
    rfl
  · rw [hframe, hpre, checkTraps_addr_pres]
    rfl
  · rw [hframe, hpre, checkTraps_player_id]
    rw [show S3.player_id = 0 from rfl]
    rw [checkTraps_network, hfired]
    intro h
    have hs := congrArg Player.score h
    rw [show (S3.network_players 0).score = 0 from rfl] at hs
    rw [show ({ S3.players 0 with
        is_trapped := true
        score := (S3.players 0).score + 1 } : Player).score
      = (S3.players 0).score + 1 from rfl] at hs
    rw [show (S3.players 0).score = 0 from rfl] at hs
    norm_num at hs

/-! ### C6: codec round-trip

The wire codec itself lives in the external `bincode` crate (the source
only calls `bincode::serialize` / `bincode::deserialize`), so it is
modelled here from the spec (§4.1, §6): a compact binary form, one
message per datagram, total encoding, decoding that fails on
malformed buffers.  `bincode`'s (v1, default configuration) layout is:
a `u32` little-endian variant tag, then the fields in order, with
`u8` as one byte, `bool` as one byte (0/1), `i32`/`f32` as four
little-endian bytes.  Scalar fields are carried as their machine bit
patterns (`Fin (2^32)`), which makes the wire value set exactly the
constructible Rust values. -/

namespace Wire

/-- One octet. -/
abbrev Byte := Fin 256

/-- Little-endian encoding of `n` in `k` bytes. -/
def natLE : ℕ → ℕ → List Byte
  | 0, _ => []
  | k + 1, n => ⟨n % 256, Nat.mod_lt _ (by norm_num)⟩ :: natLE k (n / 256)

/-- Little-endian value of a byte string. -/
def leNat : List Byte → ℕ
  | [] => 0
  | b :: r => b.val + 256 * leNat r

lemma leNat_natLE : ∀ (k n : ℕ), n < 256 ^ k → leNat (natLE k n) = n := by
  intro k
  induction k with
  | zero =>
      intro n h
      interval_cases n
      rfl
  | succ j ih =>
      intro n h
      show n % 256 + 256 * leNat (natLE j (n / 256)) = n
      rw [ih (n / 256) (by
        rw [Nat.div_lt_iff_lt_mul (by norm_num : 0 < 256)]
        calc n < 256 ^ (j + 1) := h
        _ = 256 ^ j * 256 := by ring)]
      omega

/-- Modelled from the spec: the `Player` record as it crosses the wire —
`bincode` writes `id: u8`, the four `f32` coordinates as IEEE-754 bit
patterns, `score: i32` as its two's-complement bit pattern, and the
`bool` flag. -/
structure WirePlayer where
  id : Fin 256
  pos_x : Fin (2 ^ 32)
  pos_y : Fin (2 ^ 32)
  shadow_x : Fin (2 ^ 32)
  shadow_y : Fin (2 ^ 32)
  score : Fin (2 ^ 32)
  is_trapped : Bool

/-- Modelled from the spec: the four wire message kinds of `Message`. -/
inductive WireMessage where
  | playerUpdate (p : WirePlayer)
  | inverseControl (active : Bool) (time_left : Fin (2 ^ 32))
  | trapEvent (player_id : Fin 256)
  | gameReset

def encodeBool (b : Bool) : Byte := if b then 1 else 0

/-- Modelled from the spec: `bincode::serialize` of a `Player`. -/
def encodePlayer (p : WirePlayer) : List Byte :=
  natLE 1 p.id.val ++ natLE 4 p.pos_x.val ++ natLE 4 p.pos_y.val ++
    natLE 4 p.shadow_x.val ++ natLE 4 p.shadow_y.val ++
    natLE 4 p.score.val ++ [encodeBool p.is_trapped]

/-- Modelled from the spec: `bincode::serialize` of a `Message` — a
`u32` little-endian variant tag followed by the variant's fields.
Total by construction, as the spec requires. -/
def encode : WireMessage → List Byte
  | .playerUpdate p => natLE 4 0 ++ encodePlayer p
  | .inverseControl a t => natLE 4 1 ++ [encodeBool a] ++ natLE 4 t.val
  | .trapEvent i => natLE 4 2 ++ natLE 1 i.val
  | .gameReset => natLE 4 3

lemma leNat_lt : ∀ l : List Byte, leNat l < 256 ^ l.length := by
  intro l
  induction l with
  | nil => norm_num [leNat]
  | cons b r ih =>
      show b.val + 256 * leNat r < 256 ^ (r.length + 1)
      have hb := b.isLt
      have : 256 ^ (r.length + 1) = 256 * 256 ^ r.length := by ring
      rw [this]
      omega

def read1 : List Byte → Option (Fin 256 × List Byte)
  | b :: rest => some (b, rest)
  | [] => none

def read4 : List Byte → Option (Fin (2 ^ 32) × List Byte)
  | b0 :: b1 :: b2 :: b3 :: rest =>
      some (⟨leNat [b0, b1, b2, b3], by
        have h := leNat_lt [b0, b1, b2, b3]
        norm_num at h
        norm_num
        exact h⟩, rest)
  | _ => none

def readBool : List Byte → Option (Bool × List Byte)
  | b :: rest =>
      if b.val = 1 then some (true, rest)
      else if b.val = 0 then some (false, rest)
      else none
  | [] => none

/-- Modelled from the spec: `bincode::deserialize` of a `Player`. -/
def decodePlayer (l : List Byte) : Option (WirePlayer × List Byte) := do
  let (id, l) ← read1 l
  let (px, l) ← read4 l
  let (py, l) ← read4 l
  let (sx, l) ← read4 l
  let (sy, l) ← read4 l
  let (sc, l) ← read4 l
  let (tr, l) ← readBool l
  pure (⟨id, px, py, sx, sy, sc, tr⟩, l)

/-- Modelled from the spec: `bincode::deserialize::<Message>` — read the
variant tag, then the fields; any malformed or truncated buffer yields
`none` (a `DecodeError`). -/
def decode (l : List Byte) : Option WireMessage := do
  let (tag, l) ← read4 l
  if tag.val = 0 then do
    let (p, _) ← decodePlayer l
    pure (.playerUpdate p)
  else if tag.val = 1 then do
    let (a, l) ← readBool l
    let (t, _) ← read4 l
    pure (.inverseControl a t)
  else if tag.val = 2 then do
    let (i, _) ← read1 l
    pure (.trapEvent i)
  else if tag.val = 3 then pure .gameReset
  else none

lemma read4_natLE (n : ℕ) (h : n < 2 ^ 32) (rest : List Byte) :
    read4 (natLE 4 n ++ rest) = some (⟨n, h⟩, rest) := by
  show read4 (⟨n % 256, _⟩ :: ⟨n / 256 % 256, _⟩ :: ⟨n / 256 / 256 % 256, _⟩ ::
    ⟨n / 256 / 256 / 256 % 256, _⟩ :: rest) = some (⟨n, h⟩, rest)
  unfold read4
  refine congrArg some (Prod.ext ?_ rfl)
  refine Fin.ext ?_
  show leNat [⟨n % 256, _⟩, ⟨n / 256 % 256, _⟩, ⟨n / 256 / 256 % 256, _⟩,
    ⟨n / 256 / 256 / 256 % 256, _⟩] = n
  simp only [leNat]
  omega

lemma read1_natLE (n : ℕ) (h : n < 256) (rest : List Byte) :
    read1 (natLE 1 n ++ rest) = some (⟨n, h⟩, rest) := by
  show read1 (⟨n % 256, _⟩ :: rest) = some (⟨n, h⟩, rest)
  unfold read1
  refine congrArg some (Prod.ext ?_ rfl)
  exact Fin.ext (Nat.mod_eq_of_lt h)

lemma readBool_encode (b : Bool) (rest : List Byte) :
    readBool (encodeBool b :: rest) = some (b, rest) := by
  cases b <;> rfl

lemma decodePlayer_encodePlayer (p : WirePlayer) (rest : List Byte) :
    decodePlayer (encodePlayer p ++ rest) = some (p, rest) := by
  obtain ⟨id, px, py, sx, sy, sc, tr⟩ := p
  unfold encodePlayer decodePlayer
  simp only [Option.bind_eq_bind, List.append_assoc, List.singleton_append]
  rw [read1_natLE id.val id.isLt]
  dsimp only [Option.bind]
  rw [read4_natLE px.val px.isLt]
  dsimp only [Option.bind]
  rw [read4_natLE py.val py.isLt]
  dsimp only [Option.bind]
  rw [read4_natLE sx.val sx.isLt]
  dsimp only [Option.bind]
  rw [read4_natLE sy.val sy.isLt]
  dsimp only [Option.bind]
  rw [read4_natLE sc.val sc.isLt]
  dsimp only [Option.bind]
  rw [readBool_encode]
  dsimp only [Option.bind]
  rfl

/-- C6.  Codec round-trip: encoding any constructible wire message
succeeds (encoding is a total function), and decoding the encoded bytes
reproduces the original message exactly. -/
theorem codec_round_trip (m : WireMessage) : decode (encode m) = some m := by
  cases m with
  | playerUpdate p =>
      unfold encode decode
      simp only [Option.bind_eq_bind]
      rw [read4_natLE 0 (by norm_num)]
      dsimp only [Option.bind]
      rw [if_pos rfl]
      rw [show (encodePlayer p : List Byte) = encodePlayer p ++ []
        from (List.append_nil _).symm]
      rw [decodePlayer_encodePlayer]
      dsimp only [Option.bind]
      rfl
  | inverseControl a t =>
      unfold encode decode
      simp only [Option.bind_eq_bind, List.append_assoc,
        List.singleton_append]
      rw [read4_natLE 1 (by norm_num)]
      dsimp only [Option.bind]
      rw [if_neg (by norm_num), if_pos rfl]
      rw [readBool_encode]
      dsimp only [Option.bind]
      rw [show (natLE 4 t.val : List Byte) = natLE 4 t.val ++ []
        from (List.append_nil _).symm]
      rw [read4_natLE t.val t.isLt]
      dsimp only [Option.bind]
      rfl
  | trapEvent i =>
      unfold encode decode
      simp only [Option.bind_eq_bind]
      rw [read4_natLE 2 (by norm_num)]
      dsimp only [Option.bind]
      rw [if_neg (by norm_num), if_neg (by norm_num), if_pos rfl]
      rw [show (natLE 1 i.val : List Byte) = natLE 1 i.val ++ []
        from (List.append_nil _).symm]
      rw [read1_natLE i.val i.isLt]
      dsimp only [Option.bind]
      rfl
  | gameReset =>
      unfold encode decode
      simp only [Option.bind_eq_bind]
      rw [show (natLE 4 3 : List Byte) = natLE 4 3 ++ []
        from (List.append_nil _).symm]
      rw [read4_natLE 3 (by norm_num)]
      dsimp only [Option.bind]
      rw [if_neg (by norm_num), if_neg (by norm_num), if_neg (by norm_num),
        if_pos rfl]
      rfl

end Wire

end ShadowSwap
